import Mathlib

/-!
Verification of the reference-counted tree subsystem of this repository:
the `tree_fix_ref_cycles` demo (a tree whose nodes own their children via
`Rc` and point back at their parent via `Weak` inside `RefCell`s), the
`smart_pointer` crate's `List` with its `tail` accessor, and the reference
cycle demonstration in `ch15-smart-pointers` (PART 9).

The embedding models the `Rc`/`Weak` runtime as a heap of allocations,
each carrying a strong count, a weak count, and an optional value (the
value is `none` once the last strong handle has been dropped).  Dropping
an `Rc` handle is modelled by a fuel-indexed worklist function that
decrements the strong count and, when it reaches zero, destroys the value
and recursively drops the strong and weak handles the value owned.
`RefCell`'s runtime borrow checking is modelled by an explicit borrow
flag; a failed borrow (`none`) models the runtime panic.
-/

namespace RcModel

/-- Allocation identifiers: one fresh `Nat` per `Rc::new`. -/
abbrev AllocId := Nat

/-- One reference-counted allocation: its strong count, weak count, and the
stored value.  `node = none` models a destroyed value (strong count hit
zero); the slot is kept as a tombstone so weak handles can still observe
that the value is gone, as `Weak::upgrade` does. -/
structure RcAlloc (α : Type) where
  strong : Nat
  weak : Nat
  node : Option α
deriving Repr, DecidableEq

/-- The heap of `Rc` allocations: the next fresh id and the memory map.
Ids ≥ `size` are unallocated and map to the all-zero tombstone. -/
structure Heap (α : Type) where
  size : AllocId
  mem : AllocId → RcAlloc α

/-- Pointwise function update on the memory map (decidable domain). -/
def updateFn {α : Type} (f : AllocId → RcAlloc α) (j : AllocId) (a : RcAlloc α) :
    AllocId → RcAlloc α :=
  fun i => if i = j then a else f i

/-- The empty heap. -/
def Heap.empty {α : Type} : Heap α :=
  ⟨0, fun _ => ⟨0, 0, none⟩⟩

/-- Apply `f` to the allocation at `i`. -/
def modifyAt {α : Type} (i : AllocId) (f : RcAlloc α → RcAlloc α) (h : Heap α) : Heap α :=
  ⟨h.size, updateFn h.mem i (f (h.mem i))⟩

/-- `Rc::strong_count`: the number of owning handles of allocation `i`. -/
def strongCount {α : Type} (h : Heap α) (i : AllocId) : Nat :=
  (h.mem i).strong

/-- `Rc::weak_count`: the number of weak handles of allocation `i`. -/
def weakCount {α : Type} (h : Heap α) (i : AllocId) : Nat :=
  (h.mem i).weak

/-- The value currently stored in allocation `i` (`none` once destroyed). -/
def valueAt {α : Type} (h : Heap α) (i : AllocId) : Option α :=
  (h.mem i).node

/-- `Rc::new v`: allocate a fresh cell with strong count 1 and weak count 0,
returning the new heap and the handle's id. -/
def alloc {α : Type} (v : α) (h : Heap α) : Heap α × AllocId :=
  (⟨h.size + 1, updateFn h.mem h.size ⟨1, 0, some v⟩⟩, h.size)

/-- `Rc::clone`: one more owning handle to allocation `i`. -/
def cloneRc {α : Type} (i : AllocId) (h : Heap α) : Heap α :=
  modifyAt i (fun a => { a with strong := a.strong + 1 }) h

/-- `Rc::downgrade`: create a weak handle to allocation `i` (weak count +1). -/
def downgrade {α : Type} (i : AllocId) (h : Heap α) : Heap α :=
  modifyAt i (fun a => { a with weak := a.weak + 1 }) h

/-- Drop one weak handle to allocation `i` (weak count -1). -/
def decWeak {α : Type} (i : AllocId) (h : Heap α) : Heap α :=
  modifyAt i (fun a => { a with weak := a.weak - 1 }) h

/-- Drop a `Weak<T>` value: `Weak::new()` (no target) drops to nothing,
a downgraded handle decrements its target's weak count. -/
def dropWeak {α : Type} (w : Option AllocId) (h : Heap α) : Heap α :=
  match w with
  | none => h
  | some i => decWeak i h

/-- Drop one owning handle to allocation `i` without destroying the value
(used while the strong count stays positive). -/
def decStrong {α : Type} (i : AllocId) (h : Heap α) : Heap α :=
  modifyAt i (fun a => { a with strong := a.strong - 1 }) h

/-- Destroy the value of allocation `i`: strong count becomes 0 and the
stored value is gone.  The weak count is untouched: outstanding weak
handles keep observing the tombstone. -/
def kill {α : Type} (i : AllocId) (h : Heap α) : Heap α :=
  modifyAt i (fun a => { a with strong := 0, node := none }) h

/-- `Weak::upgrade`: a weak handle with no target (`Weak::new()`) upgrades
to `none`; a downgraded handle upgrades to its target exactly when the
target's strong count is still positive. -/
def upgrade {α : Type} (w : Option AllocId) (h : Heap α) : Option AllocId :=
  match w with
  | none => none
  | some i => if 0 < strongCount h i then some i else none

/-- What handles a stored value owns: `owned` are the strong (`Rc`) handles
held inside the value, `weakref` the target of the weak handle it holds
(if any).  Dropping the value drops exactly these. -/
class Owns (α : Type) where
  owned : α → List AllocId
  weakref : α → Option AllocId

/-- Drop a worklist of owning handles, fuel-indexed.  Dropping a handle
decrements the strong count; when the count was 1 it reaches zero, the
value is destroyed, its weak handle is dropped and its owned handles are
pushed onto the worklist.  With enough fuel this is exactly `Rc`'s
recursive drop. -/
def dropWork {α : Type} [Owns α] : Nat → List AllocId → Heap α → Heap α
  | 0, _, h => h
  | _ + 1, [], h => h
  | fuel + 1, i :: rest, h =>
    if 2 ≤ (h.mem i).strong then
      dropWork fuel rest (decStrong i h)
    else if (h.mem i).strong = 1 then
      match (h.mem i).node with
      | none => dropWork fuel rest (kill i h)
      | some v => dropWork fuel (Owns.owned v ++ rest) (dropWeak (Owns.weakref v) (kill i h))
    else
      dropWork fuel rest h

/-- Drop one owning handle to allocation `i` (`Rc`'s `Drop`). -/
def dropRc {α : Type} [Owns α] (fuel : Nat) (i : AllocId) (h : Heap α) : Heap α :=
  dropWork fuel [i] h

/-! ## The tree node of `tree_fix_ref_cycles/src/main.rs`

```rust
struct Node {
    value: i32,
    parent: RefCell<Weak<Node>>,
    child: RefCell<Vec<Rc<Node>>>
}
```

`parent` holds a weak handle: `none` models `Weak::new()` (no target),
`some p` a handle obtained from `Rc::downgrade` on `p`.  `child` holds the
owning handles to the children. -/

/-- A tree node: integer payload, weak parent back-reference, owned children. -/
structure Node where
  value : Int
  parent : Option AllocId
  children : List AllocId
deriving Repr, DecidableEq

/-- A node owns the strong handles in its `child` vector and the weak
handle in its `parent` cell. -/
instance : Owns Node :=
  ⟨Node.children, Node.parent⟩

/-- `Rc::new(Node { value, parent: RefCell::new(Weak::new()), child:
RefCell::new(vec![...]) })`: the children handles are produced by
`Rc::clone` on existing handles (as in `vec![Rc::clone(&leaf)]`), then the
node is allocated with strong count 1 and weak count 0. -/
def newNode (v : Int) (cs : List AllocId) (h : Heap Node) : Heap Node × AllocId :=
  alloc { value := v, parent := none, children := cs }
    (cs.foldl (fun hh c => cloneRc c hh) h)

/-- The spec's `create(value)`: a fresh node with no parent and no children. -/
def create (v : Int) (h : Heap Node) : Heap Node × AllocId :=
  newNode v [] h

/-- `*child.parent.borrow_mut() = Rc::downgrade(&parent)`: the right-hand
side creates a weak handle to `p` (weak count +1), the assignment drops
the weak handle previously stored in the cell and stores the new one. -/
def setParent (c p : AllocId) (h : Heap Node) : Heap Node :=
  match valueAt h c with
  | none => h
  | some n =>
    modifyAt c (fun a => { a with node := some { n with parent := some p } })
      (dropWeak n.parent (downgrade p h))

/-- `parent.child.borrow_mut().push(Rc::clone(&child))`: one more owning
handle to `c`, appended to `p`'s children list. -/
def pushChild (p c : AllocId) (h : Heap Node) : Heap Node :=
  match valueAt h p with
  | none => h
  | some n =>
    modifyAt p (fun a => { a with node := some { n with children := n.children ++ [c] } })
      (cloneRc c h)

/-- The spec's `attach_child(parent, child)`: the composite of the two
linking steps the demo performs — the child handle is cloned into the
parent's children list and the child's parent cell is overwritten with a
weak handle to the parent. -/
def attachChild (p c : AllocId) (h : Heap Node) : Heap Node :=
  setParent c p (pushChild p c h)

/-- The spec's `resolve_parent(node)`: `node.parent.borrow().upgrade()`. -/
def resolveParent (c : AllocId) (h : Heap Node) : Option AllocId :=
  match valueAt h c with
  | none => none
  | some n => upgrade n.parent h

/-- `Rc::strong_count(&node)` as a state-passing operation: it returns the
count and the heap it was given, mutating nothing. -/
def strongCountOp (i : AllocId) (h : Heap Node) : Nat × Heap Node :=
  (strongCount h i, h)

/-- `Rc::weak_count(&node)` as a state-passing operation. -/
def weakCountOp (i : AllocId) (h : Heap Node) : Nat × Heap Node :=
  (weakCount h i, h)

/-- Call `Rc::strong_count` `k` times in a row, threading the heap. -/
def observeStrongN : Nat → AllocId → Heap Node → List Nat × Heap Node
  | 0, _, h => ([], h)
  | k + 1, i, h =>
    let r := strongCountOp i h
    let rest := observeStrongN k i r.2
    (r.1 :: rest.1, rest.2)

/-- Call `Rc::weak_count` `k` times in a row, threading the heap. -/
def observeWeakN : Nat → AllocId → Heap Node → List Nat × Heap Node
  | 0, _, h => ([], h)
  | k + 1, i, h =>
    let r := weakCountOp i h
    let rest := observeWeakN k i r.2
    (r.1 :: rest.1, rest.2)

/-! ## The trace of `tree_fix_ref_cycles`'s `main`

`main` creates `leaf` (value 10, no children), prints its counts, then in
an inner scope creates `parent` (value 15, children `[Rc::clone(&leaf)]`),
sets `leaf`'s parent cell to `Rc::downgrade(&parent)`, prints the counts
of both, and on leaving the scope drops the only owning handle to
`parent`; the final two prints show `leaf`'s counts again. -/

/-- Heap after `let leaf = Rc::new(Node { value: 10, .. });` (`leaf` is id 0). -/
def treeHeap1 : Heap Node :=
  (newNode 10 [] Heap.empty).1

/-- `leaf`'s allocation id. -/
def leafId : AllocId :=
  (newNode 10 [] Heap.empty).2

/-- Heap after `let parent = Rc::new(Node { value: 15, child:
RefCell::new(vec![Rc::clone(&leaf)]), .. });` (`parent` is id 1). -/
def treeHeap2 : Heap Node :=
  (newNode 15 [leafId] treeHeap1).1

/-- `parent`'s allocation id. -/
def parentId : AllocId :=
  (newNode 15 [leafId] treeHeap1).2

/-- Heap after `*leaf.parent.borrow_mut() = Rc::downgrade(&parent);`. -/
def treeHeap3 : Heap Node :=
  setParent leafId parentId treeHeap2

/-- Heap after the inner scope ends and the `parent` binding is dropped. -/
def treeHeap4 : Heap Node :=
  dropRc 8 parentId treeHeap3

/-- The integers `main` prints: `strong count = ...` / `weak count = ...`
after creating `leaf`; strong/weak of `leaf` then of `parent` after the
parent link is set; strong/weak of `leaf` after the scope ends. -/
def treeOutput : List Nat :=
  [strongCount treeHeap1 leafId, weakCount treeHeap1 leafId,
   strongCount treeHeap3 leafId, weakCount treeHeap3 leafId,
   strongCount treeHeap3 parentId, weakCount treeHeap3 parentId,
   strongCount treeHeap4 leafId, weakCount treeHeap4 leafId]

/-! ## `RefCell`'s runtime borrow checking

Both `Node` fields are `RefCell`s: borrows are checked at runtime, and a
conflicting `borrow_mut` panics (the commented-out double borrow in
`MockMessenger::send` in `ch15-smart-pointers/src/main.rs`).  The borrow
state of one cell is a flag; a borrow operation returns `none` to model
the process-terminating `BorrowMutError` panic. -/

/-- The runtime borrow state of one `RefCell`: unborrowed, `n + 1`
outstanding shared borrows, or one outstanding mutable borrow. -/
inductive BorrowFlag where
  | free
  | reading (n : Nat)
  | writing
deriving Repr, DecidableEq

/-- `RefCell::borrow_mut`: succeeds only on an unborrowed cell; `none`
models the `already borrowed: BorrowMutError` panic. -/
def borrowMut : BorrowFlag → Option BorrowFlag
  | .free => some .writing
  | .reading _ => none
  | .writing => none

/-- `RefCell::borrow`: succeeds unless a mutable borrow is outstanding. -/
def borrowShared : BorrowFlag → Option BorrowFlag
  | .free => some (.reading 0)
  | .reading n => some (.reading (n + 1))
  | .writing => none

/-- Release one mutable borrow (the `RefMut` guard going out of scope). -/
def releaseMut : BorrowFlag → BorrowFlag
  | .writing => .free
  | f => f

/-- One disciplined mutable access: acquire `borrow_mut` and release it
within the same operation, as every statement of the demo does. -/
def scopedWrite (f : BorrowFlag) : Option BorrowFlag :=
  (borrowMut f).map releaseMut

/-- Run `k` disciplined mutable accesses in sequence; `none` as soon as
any borrow panics. -/
def runScopedWrites : Nat → BorrowFlag → Option BorrowFlag
  | 0, f => some f
  | k + 1, f => (scopedWrite f).bind (runScopedWrites k)

/-! ## The `List` of `smart_pointer/src/lib.rs`

```rust
pub enum List {
    Cons(i32, RefCell<Rc<List>>),
    Nil
}
```

The `RefCell` in a `Cons` cell is inline in the cell; its content is an
`Rc<List>` handle, embedded as the target's allocation id.  (`RcList`
stands for the crate's `List`; the name `List` itself is Lean's.) -/

/-- The `smart_pointer` crate's `List`. -/
inductive RcList where
  | cons (v : Int) (tail : AllocId)
  | nil
deriving Repr, DecidableEq

/-- `List::tail`: `Some` of the tail cell of a `Cons` (the cell is
represented by the handle it currently stores), `None` on `Nil`.

```rust
pub fn tail(&self) -> Option<&RefCell<Rc<List>>> {
    match self {
        List::Cons(_, tail) => Some(tail),
        List::Nil => None
    }
}
``` -/
def RcList.tail : RcList → Option AllocId
  | .cons _ t => some t
  | .nil => none

/-- A `Cons` cell owns the strong handle in its tail cell; the type holds
no weak handles. -/
instance : Owns RcList :=
  ⟨fun l => match l with | .cons _ t => [t] | .nil => [], fun _ => none⟩

/-! ## The trace of PART 9 of `ch15-smart-pointers`'s `main`

```rust
let ref_1 = Rc::new(Cons(5, RefCell::new(Rc::new(Nil))));
let ref_2 = Rc::new(Cons(10, RefCell::new(Rc::clone(&ref_1))));
if let Some(link) = ref_1.tail() {
    *link.borrow_mut() = Rc::clone(&ref_2);
}
```
-/

/-- `*x.tail().borrow_mut() = Rc::clone(&y)`: the right-hand side clones a
handle to `y`, the assignment drops the handle previously stored in `x`'s
tail cell and stores the new one.  A `Nil` (no tail cell) is unchanged. -/
def linkTailTo (fuel : Nat) (x y : AllocId) (h : Heap RcList) : Heap RcList :=
  match valueAt h x with
  | some (.cons v old) =>
    modifyAt x (fun a => { a with node := some (.cons v y) })
      (dropRc fuel old (cloneRc y h))
  | _ => h

/-- Heap after `Rc::new(Nil)` (id 0, the handle moves into `ref_1`'s cell). -/
def listHeap1 : Heap RcList :=
  (alloc RcList.nil Heap.empty).1

/-- Heap after `let ref_1 = Rc::new(Cons(5, RefCell::new(Rc::new(Nil))));`
(`ref_1` is id 1). -/
def listHeap2 : Heap RcList :=
  (alloc (RcList.cons 5 (alloc RcList.nil Heap.empty).2) listHeap1).1

/-- `ref_1`'s allocation id. -/
def ref1Id : AllocId :=
  (alloc (RcList.cons 5 (alloc RcList.nil Heap.empty).2) listHeap1).2

/-- Heap after `let ref_2 = Rc::new(Cons(10, RefCell::new(Rc::clone(&ref_1))));`
(`ref_2` is id 2). -/
def listHeap3 : Heap RcList :=
  (alloc (RcList.cons 10 ref1Id) (cloneRc ref1Id listHeap2)).1

/-- `ref_2`'s allocation id. -/
def ref2Id : AllocId :=
  (alloc (RcList.cons 10 ref1Id) (cloneRc ref1Id listHeap2)).2

/-- Heap after `*link.borrow_mut() = Rc::clone(&ref_2);` — the cycle. -/
def listHeap4 : Heap RcList :=
  linkTailTo 8 ref1Id ref2Id listHeap3

/-- Heap after `main` ends: the local bindings `ref_2` then `ref_1` are
dropped (reverse declaration order). -/
def listHeap5 : Heap RcList :=
  dropRc 8 ref1Id (dropRc 8 ref2Id listHeap4)

/-! ## Observer lemmas for the heap primitives -/

@[simp]
theorem strongCount_cloneRc {α : Type} (h : Heap α) (j i : AllocId) :
    strongCount (cloneRc j h) i = if i = j then strongCount h i + 1 else strongCount h i := by
  by_cases hij : i = j <;> simp [cloneRc, modifyAt, strongCount, updateFn, hij]

@[simp]
theorem weakCount_cloneRc {α : Type} (h : Heap α) (j i : AllocId) :
    weakCount (cloneRc j h) i = weakCount h i := by
  by_cases hij : i = j <;> simp [cloneRc, modifyAt, weakCount, updateFn, hij]

@[simp]
theorem valueAt_cloneRc {α : Type} (h : Heap α) (j i : AllocId) :
    valueAt (cloneRc j h) i = valueAt h i := by
  by_cases hij : i = j <;> simp [cloneRc, modifyAt, valueAt, updateFn, hij]

@[simp]
theorem strongCount_downgrade {α : Type} (h : Heap α) (j i : AllocId) :
    strongCount (downgrade j h) i = strongCount h i := by
  by_cases hij : i = j <;> simp [downgrade, modifyAt, strongCount, updateFn, hij]

@[simp]
theorem weakCount_downgrade {α : Type} (h : Heap α) (j i : AllocId) :
    weakCount (downgrade j h) i = if i = j then weakCount h i + 1 else weakCount h i := by
  by_cases hij : i = j <;> simp [downgrade, modifyAt, weakCount, updateFn, hij]

@[simp]
theorem valueAt_downgrade {α : Type} (h : Heap α) (j i : AllocId) :
    valueAt (downgrade j h) i = valueAt h i := by
  by_cases hij : i = j <;> simp [downgrade, modifyAt, valueAt, updateFn, hij]

@[simp]
theorem strongCount_decWeak {α : Type} (h : Heap α) (j i : AllocId) :
    strongCount (decWeak j h) i = strongCount h i := by
  by_cases hij : i = j <;> simp [decWeak, modifyAt, strongCount, updateFn, hij]

@[simp]
theorem valueAt_decWeak {α : Type} (h : Heap α) (j i : AllocId) :
    valueAt (decWeak j h) i = valueAt h i := by
  by_cases hij : i = j <;> simp [decWeak, modifyAt, valueAt, updateFn, hij]

@[simp]
theorem strongCount_dropWeak {α : Type} (w : Option AllocId) (h : Heap α) (i : AllocId) :
    strongCount (dropWeak w h) i = strongCount h i := by
  cases w <;> simp [dropWeak]

@[simp]
theorem valueAt_dropWeak {α : Type} (w : Option AllocId) (h : Heap α) (i : AllocId) :
    valueAt (dropWeak w h) i = valueAt h i := by
  cases w <;> simp [dropWeak]

@[simp]
theorem strongCount_decStrong {α : Type} (h : Heap α) (j i : AllocId) :
    strongCount (decStrong j h) i = if i = j then strongCount h i - 1 else strongCount h i := by
  by_cases hij : i = j <;> simp [decStrong, modifyAt, strongCount, updateFn, hij]

@[simp]
theorem valueAt_decStrong {α : Type} (h : Heap α) (j i : AllocId) :
    valueAt (decStrong j h) i = valueAt h i := by
  by_cases hij : i = j <;> simp [decStrong, modifyAt, valueAt, updateFn, hij]

@[simp]
theorem strongCount_kill {α : Type} (h : Heap α) (j i : AllocId) :
    strongCount (kill j h) i = if i = j then 0 else strongCount h i := by
  by_cases hij : i = j <;> simp [kill, modifyAt, strongCount, updateFn, hij]

@[simp]
theorem weakCount_kill {α : Type} (h : Heap α) (j i : AllocId) :
    weakCount (kill j h) i = weakCount h i := by
  by_cases hij : i = j <;> simp [kill, modifyAt, weakCount, updateFn, hij]

@[simp]
theorem valueAt_kill {α : Type} (h : Heap α) (j i : AllocId) :
    valueAt (kill j h) i = if i = j then none else valueAt h i := by
  by_cases hij : i = j <;> simp [kill, modifyAt, valueAt, updateFn, hij]

theorem strongCount_modifyAt_keep {α : Type} (h : Heap α) (j i : AllocId)
    (f : RcAlloc α → RcAlloc α) (hf : (f (h.mem j)).strong = (h.mem j).strong) :
    strongCount (modifyAt j f h) i = strongCount h i := by
  by_cases hij : i = j <;> simp [modifyAt, strongCount, updateFn, hij, hf]

theorem weakCount_modifyAt_keep {α : Type} (h : Heap α) (j i : AllocId)
    (f : RcAlloc α → RcAlloc α) (hf : (f (h.mem j)).weak = (h.mem j).weak) :
    weakCount (modifyAt j f h) i = weakCount h i := by
  by_cases hij : i = j <;> simp [modifyAt, weakCount, updateFn, hij, hf]

theorem valueAt_modifyAt_ne {α : Type} (h : Heap α) (j i : AllocId)
    (f : RcAlloc α → RcAlloc α) (hij : i ≠ j) :
    valueAt (modifyAt j f h) i = valueAt h i := by
  simp [modifyAt, valueAt, updateFn, hij]

theorem valueAt_modifyAt_self {α : Type} (h : Heap α) (j : AllocId)
    (f : RcAlloc α → RcAlloc α) :
    valueAt (modifyAt j f h) j = (f (h.mem j)).node := by
  simp [modifyAt, valueAt, updateFn]

/-! ## The drop semantics only degrades allocations

Dropping handles never increases any strong count and never resurrects a
destroyed value: every allocation either keeps its value or loses it. -/

/-- `h2` is reachable from `h` by dropping handles: no strong count grew
and no destroyed value came back. -/
structure Degrades {α : Type} (h h2 : Heap α) : Prop where
  strong_le : ∀ i, strongCount h2 i ≤ strongCount h i
  node_mono : ∀ i, valueAt h2 i = valueAt h i ∨ valueAt h2 i = none

theorem degrades_rfl {α : Type} (h : Heap α) : Degrades h h :=
  ⟨fun _ => le_refl _, fun _ => Or.inl rfl⟩

theorem degrades_trans {α : Type} {h1 h2 h3 : Heap α}
    (a : Degrades h1 h2) (b : Degrades h2 h3) : Degrades h1 h3 := by
  refine ⟨fun i => (b.strong_le i).trans (a.strong_le i), fun i => ?_⟩
  rcases b.node_mono i with e | e
  · rcases a.node_mono i with e2 | e2
    · exact Or.inl (e.trans e2)
    · exact Or.inr (e.trans e2)
  · exact Or.inr e

theorem degrades_decStrong {α : Type} (h : Heap α) (j : AllocId) :
    Degrades h (decStrong j h) := by
  refine ⟨fun i => ?_, fun i => Or.inl (valueAt_decStrong h j i)⟩
  by_cases hij : i = j <;> simp [hij]

theorem degrades_kill {α : Type} (h : Heap α) (j : AllocId) :
    Degrades h (kill j h) := by
  refine ⟨fun i => ?_, fun i => ?_⟩ <;> by_cases hij : i = j <;> simp [hij]

theorem degrades_dropWeak {α : Type} (w : Option AllocId) (h : Heap α) :
    Degrades h (dropWeak w h) :=
  ⟨fun i => le_of_eq (strongCount_dropWeak w h i), fun i => Or.inl (valueAt_dropWeak w h i)⟩

/-- Unfolding equation for `dropWork` on a nonempty worklist. -/
theorem dropWork_cons {α : Type} [Owns α] (fuel : Nat) (i : AllocId)
    (rest : List AllocId) (h : Heap α) :
    dropWork (fuel + 1) (i :: rest) h =
      if 2 ≤ strongCount h i then dropWork fuel rest (decStrong i h)
      else if strongCount h i = 1 then
        match valueAt h i with
        | none => dropWork fuel rest (kill i h)
        | some v => dropWork fuel (Owns.owned v ++ rest) (dropWeak (Owns.weakref v) (kill i h))
      else dropWork fuel rest h :=
  rfl

/-- Unfolding equation for `dropWork` on the empty worklist. -/
theorem dropWork_nil {α : Type} [Owns α] (fuel : Nat) (h : Heap α) :
    dropWork fuel [] h = h := by
  cases fuel <;> rfl

theorem degrades_dropWork {α : Type} [Owns α] :
    ∀ (fuel : Nat) (l : List AllocId) (h : Heap α), Degrades h (dropWork fuel l h) := by
  intro fuel
  induction fuel with
  | zero => intro l h; exact degrades_rfl h
  | succ f ih =>
    intro l h
    match l with
    | [] => rw [dropWork_nil]; exact degrades_rfl h
    | i :: rest =>
      rw [dropWork_cons]
      by_cases h2 : 2 ≤ strongCount h i
      · rw [if_pos h2]
        exact degrades_trans (degrades_decStrong h i) (ih rest (decStrong i h))
      · rw [if_neg h2]
        by_cases h1 : strongCount h i = 1
        · rw [if_pos h1]
          cases hn : valueAt h i with
          | none => exact degrades_trans (degrades_kill h i) (ih rest (kill i h))
          | some v =>
            exact degrades_trans
              (degrades_trans (degrades_kill h i) (degrades_dropWeak (Owns.weakref v) (kill i h)))
              (ih (Owns.owned v ++ rest) (dropWeak (Owns.weakref v) (kill i h)))
        · rw [if_neg h1]
          exact ih rest h

theorem degrades_dropRc {α : Type} [Owns α] (fuel : Nat) (i : AllocId) (h : Heap α) :
    Degrades h (dropRc fuel i h) :=
  degrades_dropWork fuel [i] h

/-- Dropping the last owning handle destroys the value and leaves the
strong count at zero — the outstanding weak count is irrelevant. -/
theorem dropRc_last {α : Type} [Owns α] (fuel : Nat) (i : AllocId) (h : Heap α)
    (h1 : strongCount h i = 1) :
    valueAt (dropRc (fuel + 1) i h) i = none ∧ strongCount (dropRc (fuel + 1) i h) i = 0 := by
  have h2 : ¬ 2 ≤ strongCount h i := by omega
  rw [dropRc, dropWork_cons, if_neg h2, if_pos h1]
  cases hn : valueAt h i with
  | none =>
    show valueAt (dropWork fuel [] (kill i h)) i = none
      ∧ strongCount (dropWork fuel [] (kill i h)) i = 0
    constructor
    · rcases (degrades_dropWork fuel [] (kill i h)).node_mono i with e | e
      · rw [e]; simp
      · exact e
    · have hs := (degrades_dropWork fuel [] (kill i h)).strong_le i
      simp at hs
      omega
  | some v =>
    show valueAt (dropWork fuel (Owns.owned v ++ []) (dropWeak (Owns.weakref v) (kill i h))) i = none
      ∧ strongCount (dropWork fuel (Owns.owned v ++ []) (dropWeak (Owns.weakref v) (kill i h))) i = 0
    constructor
    · rcases (degrades_dropWork fuel (Owns.owned v ++ [])
        (dropWeak (Owns.weakref v) (kill i h))).node_mono i with e | e
      · rw [e]; simp
      · exact e
    · have hs := (degrades_dropWork fuel (Owns.owned v ++ [])
        (dropWeak (Owns.weakref v) (kill i h))).strong_le i
      simp at hs ⊢
      omega

/-- Dropping one of at least two owning handles leaves the value intact. -/
theorem dropRc_keep {α : Type} [Owns α] (fuel : Nat) (i : AllocId) (h : Heap α)
    (h2 : 2 ≤ strongCount h i) :
    valueAt (dropRc fuel i h) i = valueAt h i := by
  cases fuel with
  | zero => rfl
  | succ f =>
    rw [dropRc, dropWork_cons, if_pos h2, dropWork_nil]
    simp

/-! ## Lemmas about the tree operations -/

@[simp]
theorem strongCount_modifyAt_node {α : Type} (h : Heap α) (j i : AllocId) (o : Option α) :
    strongCount (modifyAt j (fun a => { a with node := o }) h) i = strongCount h i :=
  strongCount_modifyAt_keep h j i _ rfl

@[simp]
theorem weakCount_modifyAt_node {α : Type} (h : Heap α) (j i : AllocId) (o : Option α) :
    weakCount (modifyAt j (fun a => { a with node := o }) h) i = weakCount h i :=
  weakCount_modifyAt_keep h j i _ rfl

@[simp]
theorem valueAt_modifyAt_node {α : Type} (h : Heap α) (j i : AllocId) (o : Option α) :
    valueAt (modifyAt j (fun a => { a with node := o }) h) i = if i = j then o else valueAt h i := by
  by_cases hij : i = j
  · subst hij; simp [valueAt_modifyAt_self]
  · simp [hij, valueAt_modifyAt_ne h j i _ hij]

/-- `setParent` touches no strong count: the back-reference is weak. -/
theorem strongCount_setParent (c p : AllocId) (h : Heap Node) (q : AllocId) :
    strongCount (setParent c p h) q = strongCount h q := by
  unfold setParent
  cases hv : valueAt h c with
  | none => rfl
  | some n =>
    show strongCount (modifyAt c (fun a => { a with node := some { n with parent := some p } })
      (dropWeak n.parent (downgrade p h))) q = strongCount h q
    simp

/-- `setParent` rewrites only the parent cell: every node keeps its
children list, so the strong-ownership edges are unchanged. -/
theorem children_setParent (c p : AllocId) (h : Heap Node) (q : AllocId) :
    (valueAt (setParent c p h) q).map Node.children = (valueAt h q).map Node.children := by
  unfold setParent
  cases hv : valueAt h c with
  | none => rfl
  | some n =>
    show ((valueAt (modifyAt c (fun a => { a with node := some { n with parent := some p } })
      (dropWeak n.parent (downgrade p h))) q).map Node.children)
      = (valueAt h q).map Node.children
    by_cases hq : q = c
    · subst hq; simp [hv]
    · simp [hq]

/-- The combined effect of `attach_child(parent, child)` on a heap where
both nodes are alive, the child's parent cell is empty, and parent and
child are distinct nodes. -/
theorem attachChild_spec (h : Heap Node) (p c : AllocId) (n m : Node)
    (hp : valueAt h p = some n) (hc : valueAt h c = some m)
    (hm : m.parent = none) (hne : p ≠ c) :
    strongCount (attachChild p c h) c = strongCount h c + 1
    ∧ weakCount (attachChild p c h) p = weakCount h p + 1
    ∧ strongCount (attachChild p c h) p = strongCount h p
    ∧ valueAt (attachChild p c h) c = some { m with parent := some p } := by
  have hps : pushChild p c h
      = modifyAt p (fun a => { a with node := some { n with children := n.children ++ [c] } })
          (cloneRc c h) := by
    unfold pushChild
    rw [hp]
  have f1v : valueAt (pushChild p c h) c = some m := by
    rw [hps]
    simp [Ne.symm hne, hc]
  have key : attachChild p c h
      = modifyAt c (fun a => { a with node := some { m with parent := some p } })
          (downgrade p (pushChild p c h)) := by
    unfold attachChild setParent
    rw [f1v]
    show modifyAt c (fun a => { a with node := some { m with parent := some p } })
        (dropWeak m.parent (downgrade p (pushChild p c h)))
      = modifyAt c (fun a => { a with node := some { m with parent := some p } })
          (downgrade p (pushChild p c h))
    rw [hm]
    rfl
  rw [key, hps]
  refine ⟨?_, ?_, ?_, ?_⟩
  · simp
  · simp [hne]
  · simp [hne]
  · simp

/-! ## The claims -/

/-- C1.  Cycle-avoidance invariant: writing a weak back-reference into a
child's parent cell (`setParent`, i.e. `Rc::downgrade` into the child's
`RefCell`) changes no strong count — in particular not the parent's — and
leaves every node's children list (the strong-ownership edges) unchanged,
so the parent-owns-child / child-weakly-references-parent structure never
gains a strong edge; and a node's value is destroyed exactly when its
strong count reaches zero: dropping the last owning handle destroys it no
matter how many weak back-references are outstanding, while dropping one
of several owning handles destroys nothing. -/
theorem parent_link_preserves_ownership (h : Heap Node) (p c i : AllocId) (fuel : Nat) :
    (∀ q, strongCount (setParent c p h) q = strongCount h q)
    ∧ (∀ q, (valueAt (setParent c p h) q).map Node.children = (valueAt h q).map Node.children)
    ∧ (strongCount h i = 1 → valueAt (dropRc (fuel + 1) i h) i = none)
    ∧ (2 ≤ strongCount h i → valueAt (dropRc fuel i h) i = valueAt h i) := by
  refine ⟨strongCount_setParent c p h, children_setParent c p h, ?_, ?_⟩
  · intro h1
    exact (dropRc_last fuel i h h1).1
  · intro h2
    exact dropRc_keep fuel i h h2

/-- Witness for C1 on the demo heap: `parent` (id 1) has strong count 1 in
`treeHeap3` and is destroyed by dropping its one handle, while `leaf`
(id 0, strong count 2) survives such a drop. -/
theorem parent_link_preserves_ownership_witness :
    strongCount treeHeap3 parentId = 1
    ∧ valueAt (dropRc (7 + 1) parentId treeHeap3) parentId = none
    ∧ 2 ≤ strongCount treeHeap3 leafId
    ∧ valueAt (dropRc 8 leafId treeHeap3) leafId = valueAt treeHeap3 leafId :=
  ⟨by decide,
   (parent_link_preserves_ownership treeHeap3 parentId leafId parentId 7).2.2.1 (by decide),
   by decide,
   (parent_link_preserves_ownership treeHeap3 parentId leafId leafId 8).2.2.2 (by decide)⟩

/-- C2.  `attach_child(parent, child)` — cloning the child handle into the
parent's children list and downgrading the parent into the child's parent
cell — raises the child's strong count by exactly 1 and the parent's weak
count by exactly 1, and leaves the parent's strong count unchanged, for
any heap in which both nodes are alive, the child's parent cell is empty,
and parent and child are distinct. -/
theorem attach_child_counts (h : Heap Node) (p c : AllocId) (n m : Node)
    (hp : valueAt h p = some n) (hc : valueAt h c = some m)
    (hm : m.parent = none) (hne : p ≠ c) :
    strongCount (attachChild p c h) c = strongCount h c + 1
    ∧ weakCount (attachChild p c h) p = weakCount h p + 1
    ∧ strongCount (attachChild p c h) p = strongCount h p := by
  obtain ⟨a, b, d, -⟩ := attachChild_spec h p c n m hp hc hm hne
  exact ⟨a, b, d⟩

/-- Witness for C2: attach node 0 (value 10) to node 1 (value 15) in a
two-node heap; the counts move exactly as stated. -/
theorem attach_child_counts_witness :
    valueAt (newNode 15 [] treeHeap1).1 1 = some { value := 15, parent := none, children := [] }
    ∧ valueAt (newNode 15 [] treeHeap1).1 0 = some { value := 10, parent := none, children := [] }
    ∧ (strongCount (attachChild 1 0 (newNode 15 [] treeHeap1).1) 0
        = strongCount (newNode 15 [] treeHeap1).1 0 + 1
      ∧ weakCount (attachChild 1 0 (newNode 15 [] treeHeap1).1) 1
        = weakCount (newNode 15 [] treeHeap1).1 1 + 1
      ∧ strongCount (attachChild 1 0 (newNode 15 [] treeHeap1).1) 1
        = strongCount (newNode 15 [] treeHeap1).1 1) :=
  ⟨by decide, by decide,
   attach_child_counts (newNode 15 [] treeHeap1).1 1 0
     { value := 15, parent := none, children := [] }
     { value := 10, parent := none, children := [] }
     (by decide) (by decide) (by decide) (by decide)⟩

/-- C3.  The demo's observable trace: after creating `leaf` (value 10) its
counts are strong 1 / weak 0; after creating `parent` (value 15, children
`[leaf]`) the heap has strong(leaf) 2, weak(leaf) 0, strong(parent) 1,
weak(parent) 0; after `*leaf.parent.borrow_mut() = Rc::downgrade(&parent)`
weak(parent) is 1 with strong(parent) still 1; and the integers printed —
leaf's counts, then leaf's and parent's counts after the link, then leaf's
counts after the scope closes — are exactly 1, 0, 2, 0, 1, 1, 1, 0. -/
theorem tree_demo_trace :
    treeOutput = [1, 0, 2, 0, 1, 1, 1, 0]
    ∧ strongCount treeHeap1 leafId = 1 ∧ weakCount treeHeap1 leafId = 0
    ∧ strongCount treeHeap2 leafId = 2 ∧ weakCount treeHeap2 leafId = 0
    ∧ strongCount treeHeap2 parentId = 1 ∧ weakCount treeHeap2 parentId = 0
    ∧ weakCount treeHeap3 parentId = 1 ∧ strongCount treeHeap3 parentId = 1 := by
  decide

/-- C4.  `create(value)` always succeeds and yields a node with an empty
children list, an absent (non-upgradeable) parent reference, strong count
1 and weak count 0, for every value and on every starting heap. -/
theorem create_fresh_node (v : Int) (h : Heap Node) :
    valueAt (create v h).1 (create v h).2 = some { value := v, parent := none, children := [] }
    ∧ strongCount (create v h).1 (create v h).2 = 1
    ∧ weakCount (create v h).1 (create v h).2 = 0
    ∧ resolveParent (create v h).2 (create v h).1 = none := by
  refine ⟨?_, ?_, ?_, ?_⟩ <;>
    simp [create, newNode, alloc, valueAt, strongCount, weakCount, updateFn,
      resolveParent, upgrade]

/-- C5.  Once the last owning handle to the parent is dropped while the
child still exists, the child's back-reference is still in place but
`resolve_parent(child)` returns absent (`none`, never an error), and the
child's outstanding weak back-reference did not prevent the destruction of
the parent's value. -/
theorem resolve_parent_after_drop (h : Heap Node) (p c : AllocId) (m : Node) (fuel : Nat)
    (hc : valueAt h c = some m) (hm : m.parent = some p)
    (hsp : strongCount h p = 1)
    (halive : (valueAt (dropRc (fuel + 1) p h) c).isSome) :
    resolveParent c (dropRc (fuel + 1) p h) = none
    ∧ valueAt (dropRc (fuel + 1) p h) p = none
    ∧ valueAt (dropRc (fuel + 1) p h) c = some m := by
  obtain ⟨hdead, hzero⟩ := dropRc_last fuel p h hsp
  have hcv : valueAt (dropRc (fuel + 1) p h) c = some m := by
    rcases (degrades_dropRc (fuel + 1) p h).node_mono c with e | e
    · rw [e, hc]
    · rw [e] at halive; simp at halive
  refine ⟨?_, hdead, hcv⟩
  unfold resolveParent
  rw [hcv]
  show upgrade m.parent (dropRc (fuel + 1) p h) = none
  rw [hm]
  simp [upgrade, hzero]

/-- Witness for C5 on the demo heap: dropping the one handle to `parent`
in `treeHeap3` leaves `leaf` intact (back-reference included) while
`resolve_parent(leaf)` becomes absent and `parent`'s value is gone. -/
theorem resolve_parent_after_drop_witness :
    valueAt treeHeap3 leafId = some { value := 10, parent := some 1, children := [] }
    ∧ strongCount treeHeap3 parentId = 1
    ∧ (resolveParent leafId (dropRc (7 + 1) parentId treeHeap3) = none
      ∧ valueAt (dropRc (7 + 1) parentId treeHeap3) parentId = none
      ∧ valueAt (dropRc (7 + 1) parentId treeHeap3) leafId
        = some { value := 10, parent := some 1, children := [] }) :=
  ⟨by decide, by decide,
   resolve_parent_after_drop treeHeap3 parentId leafId
     { value := 10, parent := some 1, children := [] } 7
     (by decide) (by decide) (by decide) (by decide)⟩

/-- C6.  Immediately after an attach, while the parent is alive (positive
strong count), resolving the child's parent upgrades to a handle to the
very parent node; `resolve_parent` is a total function into `Option` and
has no error outcome. -/
theorem resolve_parent_after_attach (h : Heap Node) (p c : AllocId) (n m : Node)
    (hp : valueAt h p = some n) (hc : valueAt h c = some m)
    (hm : m.parent = none) (hne : p ≠ c) (hlive : 0 < strongCount h p) :
    resolveParent c (attachChild p c h) = some p := by
  obtain ⟨-, -, hsp, hv⟩ := attachChild_spec h p c n m hp hc hm hne
  unfold resolveParent
  rw [hv]
  show upgrade (some p) (attachChild p c h) = some p
  simp [upgrade, hsp, hlive]

/-- Witness for C6: in the two-node heap, after attaching node 0 under
node 1, resolving node 0's parent yields node 1. -/
theorem resolve_parent_after_attach_witness :
    0 < strongCount (newNode 15 [] treeHeap1).1 1
    ∧ resolveParent 0 (attachChild 1 0 (newNode 15 [] treeHeap1).1) = some 1 :=
  ⟨by decide,
   resolve_parent_after_attach (newNode 15 [] treeHeap1).1 1 0
     { value := 15, parent := none, children := [] }
     { value := 10, parent := none, children := [] }
     (by decide) (by decide) (by decide) (by decide) (by decide)⟩

/-- C7.  `RefCell` exclusivity: a second `borrow_mut` while one is
outstanding is the fatal runtime fault (`none`, the process-terminating
panic), never a silent success; and under the single-writer discipline —
each mutable access acquired and released within one operation — any
number of successive operations never reaches the fault branch. -/
theorem refcell_exclusive_borrow_fault :
    (∀ f g, borrowMut f = some g → borrowMut g = none)
    ∧ (∀ k, runScopedWrites k BorrowFlag.free = some BorrowFlag.free) := by
  constructor
  · intro f g hf
    cases f with
    | free =>
      simp [borrowMut] at hf
      rw [← hf]
      rfl
    | reading n => simp [borrowMut] at hf
    | writing => simp [borrowMut] at hf
  · intro k
    induction k with
    | zero => rfl
    | succ j ih => simp [runScopedWrites, scopedWrite, borrowMut, releaseMut, ih]

/-- Witness for C7: a first `borrow_mut` on a free cell succeeds, the
second one panics, and three disciplined writes in a row stay fault-free. -/
theorem refcell_exclusive_borrow_fault_witness :
    borrowMut BorrowFlag.free = some BorrowFlag.writing
    ∧ borrowMut BorrowFlag.writing = none
    ∧ runScopedWrites 3 BorrowFlag.free = some BorrowFlag.free :=
  ⟨rfl,
   refcell_exclusive_borrow_fault.1 BorrowFlag.free BorrowFlag.writing rfl,
   refcell_exclusive_borrow_fault.2 3⟩

/-- C8.  The count observers are pure: calling `Rc::strong_count` or
`Rc::weak_count` any number of times with no intervening mutation returns
the same value every time and leaves the heap exactly as it was. -/
theorem count_observers_pure (i : AllocId) (h : Heap Node) (k : Nat) :
    (observeStrongN k i h).1 = List.replicate k (strongCount h i)
    ∧ (observeStrongN k i h).2 = h
    ∧ (observeWeakN k i h).1 = List.replicate k (weakCount h i)
    ∧ (observeWeakN k i h).2 = h := by
  induction k with
  | zero => exact ⟨rfl, rfl, rfl, rfl⟩
  | succ j ih =>
    obtain ⟨a, b, d, e⟩ := ih
    refine ⟨?_, ?_, ?_, ?_⟩ <;>
      simp [observeStrongN, observeWeakN, strongCountOp, weakCountOp,
        List.replicate_succ, a, b, d, e]

/-- C9.  The leak the tree design avoids, demonstrated in PART 9 of
`ch15-smart-pointers`: after `ref_1`'s tail cell is rewritten to an owning
clone of `ref_2`, both strong counts are 2 and the two `Cons` cells point
at each other (`ref_1`'s tail is `ref_2`, `ref_2`'s tail is `ref_1`); on
dropping the two local handles each count falls only to 1, so neither
reaches zero and neither cell is ever destroyed. -/
theorem ch15_cycle_leak :
    strongCount listHeap4 ref1Id = 2 ∧ strongCount listHeap4 ref2Id = 2
    ∧ (valueAt listHeap4 ref1Id).bind RcList.tail = some ref2Id
    ∧ (valueAt listHeap4 ref2Id).bind RcList.tail = some ref1Id
    ∧ strongCount listHeap5 ref1Id = 1 ∧ strongCount listHeap5 ref2Id = 1
    ∧ (valueAt listHeap5 ref1Id).isSome = true
    ∧ (valueAt listHeap5 ref2Id).isSome = true := by
  decide

/-- C10.  `List::tail` is total and never panics: on `Cons(value, rest)`
it returns `Some` of the rest cell, on `Nil` it returns `None`. -/
theorem list_tail_total :
    (∀ (v : Int) (t : AllocId), RcList.tail (RcList.cons v t) = some t)
    ∧ RcList.tail RcList.nil = none :=
  ⟨fun _ _ => rfl, rfl⟩

end RcModel


